import Mathlib

/-!
Shallow embedding of the find4me server core: the in-memory entity store
(`MemStorage` from the storage module), the conversation aggregator, and the
guess request handler from `routes.ts`.

Modelling conventions:
* JavaScript `Map` iteration order is insertion order, and `Map.set` on an
  existing key keeps its position; we model each `Map<number, T>` as a
  `List T` in insertion order (keys live inside the records as `id` fields).
* `Date` values are modelled as `Nat` ticks; operations that stamp
  `new Date()` take an explicit `now : Nat` argument.
* The nullable/optional `read` column (`boolean | null | undefined` at
  runtime) is an `Option Bool`; JS truthiness of `message.read` (used in
  every `!message.read` check) is `Option.getD false`.
* `Array.prototype.sort` is stable and every comparator in this code induces
  a total preorder, for which the stable sorted result is unique; we compute
  it with a stable insertion sort (`jsSort`), where `le a b` means
  `cmp a b ≤ 0`.
-/

/-- A user record, as stored in `MemStorage.users` (schema table `users`).
`lastActive` is always stamped by `createUser`, so it is a plain `Nat`. -/
structure User where
  id : Nat
  username : String
  password : String
  realName : String
  fakeName : String
  age : Nat
  school : String
  classInfo : String
  avatarType : String
  avatarId : String
  lastActive : Nat
  deriving DecidableEq, Repr

/-- A message record (schema table `messages`); `read` is the nullable
`boolean` column, absent (`none`) when a draft omitted it. -/
structure Message where
  id : Nat
  senderId : Nat
  receiverId : Nat
  content : String
  timestamp : Nat
  read : Option Bool
  deriving DecidableEq, Repr

/-- A guess record (schema table `guesses`). -/
structure Guess where
  id : Nat
  guesserId : Nat
  targetId : Nat
  guessedName : String
  correct : Bool
  timestamp : Nat
  deriving DecidableEq, Repr

/-- The derived `Conversation` type from the shared schema. -/
structure Conversation where
  userId : Nat
  fakeName : String
  avatarType : String
  avatarId : String
  lastMessage : Option String
  lastMessageTime : Option Nat
  unreadCount : Nat
  deriving DecidableEq, Repr

/-- JS truthiness of the `message.read` field, as used by every
`!message.read` test in the store: `null`/`undefined` count as unread. -/
def Message.isRead (m : Message) : Bool := m.read.getD false

/-- JS `String.prototype.toLowerCase`, per-character (adequate for the ASCII
comparisons this code performs). -/
def jsToLower (s : String) : String := ⟨s.data.map Char.toLower⟩

/-- JS `Array.prototype.sort cmp` for a comparator inducing a total preorder:
`le a b` stands for `cmp a b ≤ 0`.  JS sort is stable, and for a consistent
comparator the stable sorted permutation is unique, so a stable insertion
sort computes exactly the JS result. -/
def jsSort (le : α → α → Bool) (l : List α) : List α :=
  List.insertionSort (fun a b => le a b = true) l

/-- The state of `MemStorage`: three entity maps in insertion order plus the
three id counters. -/
structure MemStorage where
  users : List User
  messages : List Message
  guesses : List Guess
  userCurrentId : Nat
  messageCurrentId : Nat
  guessCurrentId : Nat
  deriving DecidableEq, Repr

namespace MemStorage

/-- `getUser(id)`: `this.users.get(id)`. -/
def getUser (s : MemStorage) (id : Nat) : Option User :=
  s.users.find? (fun u => u.id == id)

/-- `updateUserLastActive(id)`: no-op when the user is absent, otherwise
re-stores the user with `lastActive = now` under the same key. -/
def updateUserLastActive (s : MemStorage) (id : Nat) (now : Nat) : MemStorage :=
  match s.getUser id with
  | none => s
  | some _ =>
      { s with users := s.users.map (fun u =>
          if u.id == id then { u with lastActive := now } else u) }

/-- The draft accepted by `createMessage` (`InsertMessage`): `read` is
optional in the insert schema. -/
structure InsertMessage where
  senderId : Nat
  receiverId : Nat
  content : String
  read : Option Bool
  deriving DecidableEq, Repr

/-- `createMessage(draft)`: assigns the next id, stamps `timestamp = now`,
spreads the draft (so `read` is copied through verbatim), appends to the map. -/
def createMessage (s : MemStorage) (d : InsertMessage) (now : Nat) :
    MemStorage × Message :=
  let id := s.messageCurrentId
  let message : Message :=
    { id := id, senderId := d.senderId, receiverId := d.receiverId
      content := d.content, timestamp := now, read := d.read }
  ({ s with messages := s.messages ++ [message],
            messageCurrentId := s.messageCurrentId + 1 }, message)

/-- `getMessagesBetweenUsers(userId1, userId2)`: filter both directions,
then sort by `(a, b) => a.timestamp - b.timestamp` (ascending). -/
def getMessagesBetweenUsers (s : MemStorage) (userId1 userId2 : Nat) :
    List Message :=
  jsSort (fun a b => decide (a.timestamp ≤ b.timestamp))
    (s.messages.filter (fun m =>
      (m.senderId == userId1 && m.receiverId == userId2) ||
      (m.senderId == userId2 && m.receiverId == userId1)))

/-- `getUnreadMessagesCount(userId)`: messages to `userId` with
`!message.read`. -/
def getUnreadMessagesCount (s : MemStorage) (userId : Nat) : Nat :=
  (s.messages.filter (fun m => m.receiverId == userId && !m.isRead)).length

/-- The per-message update performed by the `markMessagesAsRead` loop. -/
def markRead1 (senderId receiverId : Nat) (m : Message) : Message :=
  if m.senderId == senderId && m.receiverId == receiverId && !m.isRead then
    { m with read := some true }
  else m

/-- `markMessagesAsRead(senderId, receiverId)`: the loop re-`set`s each
matching unread message with `read = true`; order of entries is unchanged. -/
def markMessagesAsRead (s : MemStorage) (senderId receiverId : Nat) :
    MemStorage :=
  { s with messages := s.messages.map (markRead1 senderId receiverId) }

/-- The draft accepted by `createGuess` (`InsertGuess`). -/
structure InsertGuess where
  guesserId : Nat
  targetId : Nat
  guessedName : String
  correct : Bool
  deriving DecidableEq, Repr

/-- `createGuess(draft)`: assigns the next id, stamps `timestamp = now`,
appends. -/
def createGuess (s : MemStorage) (d : InsertGuess) (now : Nat) :
    MemStorage × Guess :=
  let id := s.guessCurrentId
  let guess : Guess :=
    { id := id, guesserId := d.guesserId, targetId := d.targetId
      guessedName := d.guessedName, correct := d.correct, timestamp := now }
  ({ s with guesses := s.guesses ++ [guess],
            guessCurrentId := s.guessCurrentId + 1 }, guess)

/-- `Set.add` with JS `Set` insertion-order iteration semantics. -/
def addUnique (l : List Nat) (x : Nat) : List Nat :=
  if x ∈ l then l else l ++ [x]

/-- The comparator of the final conversation sort, as `cmp a b ≤ 0`:
both times absent → tie; an absent time sorts after any present one;
otherwise descending by time (`b.t - a.t ≤ 0`). A `Date` object is always
truthy in JS, so only a missing `lastMessageTime` hits the falsy branches. -/
def convLe (a b : Conversation) : Bool :=
  match a.lastMessageTime, b.lastMessageTime with
  | none, none => true
  | none, some _ => false
  | some _, none => true
  | some x, some y => decide (y ≤ x)

/-- The unsorted conversation list built by `getConversationsForUser`:
counterpart ids in first-interaction order (JS `Set`), counterparts whose
user record is gone skipped, per-counterpart messages sorted descending to
take the head as last message, unread = messages from the counterpart with
`!m.read`. -/
def buildConversations (s : MemStorage) (userId : Nat) : List Conversation :=
  let allMessages := s.messages
  let interactedUserIds := allMessages.foldl (fun acc m =>
    if m.senderId == userId then addUnique acc m.receiverId
    else if m.receiverId == userId then addUnique acc m.senderId
    else acc) []
  interactedUserIds.foldl (fun conversations otherUserId =>
    match s.getUser otherUserId with
    | none => conversations
    | some otherUser =>
        let conversationMessages :=
          jsSort (fun a b => decide (b.timestamp ≤ a.timestamp))
            (allMessages.filter (fun m =>
              (m.senderId == userId && m.receiverId == otherUserId) ||
              (m.senderId == otherUserId && m.receiverId == userId)))
        let lastMessage := conversationMessages.head?
        let unreadCount :=
          (conversationMessages.filter (fun m =>
            m.senderId == otherUserId && m.receiverId == userId &&
              !m.isRead)).length
        conversations ++
          [{ userId := otherUser.id, fakeName := otherUser.fakeName
             avatarType := otherUser.avatarType, avatarId := otherUser.avatarId
             lastMessage := lastMessage.map (·.content)
             lastMessageTime := lastMessage.map (·.timestamp)
             unreadCount := unreadCount }]) []

/-- `getConversationsForUser(userId)`: build the summaries, then sort by the
most-recent-message comparator. -/
def getConversationsForUser (s : MemStorage) (userId : Nat) :
    List Conversation :=
  jsSort convLe (buildConversations s userId)

/-- `getConversationsForUser` as a state-passing operation: the method body
only reads the store (`getUser` and `Array.from` snapshots; the sorts act on
locally created arrays), so the state component is returned untouched. -/
def conversationsQuery (s : MemStorage) (userId : Nat) :
    MemStorage × List Conversation :=
  (s, s.getConversationsForUser userId)

end MemStorage

/-- The 201 response body of `POST /api/guess`: the stored guess spread
together with the optional `targetRealName`. -/
structure GuessResponse where
  guess : Guess
  targetRealName : Option String
  deriving DecidableEq, Repr

/-- The `POST /api/guess` handler after validation: look up the target user
(404 → `none`), compute correctness by case-insensitive comparison of the
real name, persist the guess, and reveal `targetRealName` only when correct. -/
def postGuess (s : MemStorage) (guesserId targetId : Nat)
    (guessedName : String) (now : Nat) : MemStorage × Option GuessResponse :=
  match s.getUser targetId with
  | none => (s, none)
  | some targetUser =>
      let correct := jsToLower targetUser.realName == jsToLower guessedName
      let (s', guess) := s.createGuess
        { guesserId := guesserId, targetId := targetId
          guessedName := guessedName, correct := correct } now
      (s', some { guess := guess
                  targetRealName :=
                    if correct then some targetUser.realName else none })

/-! ### General lemmas about the JS sort model -/

/-- `jsSort` permutes its input. -/
theorem jsSort_perm (le : α → α → Bool) (l : List α) :
    List.Perm (jsSort le l) l :=
  List.perm_insertionSort _ l

/-- For a transitive, total comparator, `jsSort` output is pairwise ordered. -/
theorem jsSort_pairwise (le : α → α → Bool)
    (htrans : ∀ a b c, le a b = true → le b c = true → le a c = true)
    (htotal : ∀ a b, le a b = true ∨ le b a = true) (l : List α) :
    (jsSort le l).Pairwise (fun a b => le a b = true) := by
  haveI : IsTotal α (fun a b => le a b = true) := ⟨htotal⟩
  haveI : IsTrans α (fun a b => le a b = true) := ⟨htrans⟩
  exact List.sorted_insertionSort _ l

/-! ### Claim C4: idempotence of markMessagesAsRead -/

/-- Marking writes `read = some true`, so the marked record reads as read. -/
theorem isRead_set_true (m : Message) :
    ({ m with read := some true } : Message).isRead = true := rfl

theorem markRead1_idem (a r : Nat) (m : Message) :
    MemStorage.markRead1 a r (MemStorage.markRead1 a r m) =
      MemStorage.markRead1 a r m := by
  by_cases hs : (m.senderId == a) = true <;>
    by_cases hr : (m.receiverId == r) = true <;>
      by_cases hu : m.read.getD false = true <;>
        simp [MemStorage.markRead1, Message.isRead, hs, hr, hu]

/-- C4: `markMessagesAsRead(s, r)` is idempotent: for every store state and
every sender and receiver, calling it twice leaves the store (hence every
subsequent unread count) exactly as calling it once. -/
theorem markMessagesAsRead_idem (s : MemStorage) (a r : Nat) :
    (s.markMessagesAsRead a r).markMessagesAsRead a r =
      s.markMessagesAsRead a r := by
  have hcomp : MemStorage.markRead1 a r ∘ MemStorage.markRead1 a r =
      MemStorage.markRead1 a r := funext (markRead1_idem a r)
  simp [MemStorage.markMessagesAsRead, List.map_map, hcomp]

/-! ### Claim C5: unread count decreases by the marked amount -/

theorem unread_mark_aux (a r : Nat) (l : List Message) :
    ((l.map (MemStorage.markRead1 a r)).filter
        (fun m => m.receiverId == r && !m.isRead)).length +
      (l.filter
        (fun m => m.senderId == a && m.receiverId == r && !m.isRead)).length =
      (l.filter (fun m => m.receiverId == r && !m.isRead)).length := by
  induction l with
  | nil => rfl
  | cons m l ih =>
      by_cases hs : (m.senderId == a) = true <;>
        by_cases hr : (m.receiverId == r) = true <;>
          by_cases hu : m.isRead = true <;>
            simp [MemStorage.markRead1, hs, hr, hu, isRead_set_true,
              List.filter_cons] <;> omega

/-- C5: after `markMessagesAsRead(a, r)`, the unread count of `r` equals its
previous value minus the number of messages from `a` to `r` that were unread
before the call. -/
theorem unreadCount_after_markMessagesAsRead (s : MemStorage) (a r : Nat) :
    (s.markMessagesAsRead a r).getUnreadMessagesCount r =
      s.getUnreadMessagesCount r -
        (s.messages.filter
          (fun m => m.senderId == a && m.receiverId == r && !m.isRead)).length := by
  have h := unread_mark_aux a r s.messages
  simp only [MemStorage.getUnreadMessagesCount, MemStorage.markMessagesAsRead]
  omega

/-! ### Claim C6: getMessagesBetweenUsers content and ordering -/

/-- C6: `getMessagesBetweenUsers(a, b)` returns exactly the messages sent in
either direction between `a` and `b` (a permutation of the filtered store),
sorted ascending by timestamp. -/
theorem getMessagesBetweenUsers_spec (s : MemStorage) (a b : Nat) :
    List.Perm (s.getMessagesBetweenUsers a b)
      (s.messages.filter (fun m =>
        (m.senderId == a && m.receiverId == b) ||
        (m.senderId == b && m.receiverId == a))) ∧
    (s.getMessagesBetweenUsers a b).Pairwise
      (fun x y => x.timestamp ≤ y.timestamp) := by
  refine ⟨jsSort_perm _ _, ?_⟩
  have h := jsSort_pairwise
    (fun x y : Message => decide (x.timestamp ≤ y.timestamp))
    (fun x y z hxy hyz => by
      simp only [decide_eq_true_eq] at hxy hyz ⊢
      exact le_trans hxy hyz)
    (fun x y => by
      simp only [decide_eq_true_eq]
      exact le_total x.timestamp y.timestamp)
    (s.messages.filter (fun m =>
      (m.senderId == a && m.receiverId == b) ||
      (m.senderId == b && m.receiverId == a)))
  exact h.imp (fun hxy => by simpa using hxy)

/-! ### Claim C8: createMessage field assignment -/

/-- C8: `createMessage` assigns the next id (and bumps the counter), stamps
`timestamp = now`, copies `read` through from the draft, so a draft that
omits `read` yields a stored message that is not read; the message is
appended to the store. -/
theorem createMessage_assigns (s : MemStorage) (d : MemStorage.InsertMessage)
    (now : Nat) :
    (s.createMessage d now).2.id = s.messageCurrentId ∧
    (s.createMessage d now).1.messageCurrentId = s.messageCurrentId + 1 ∧
    (s.createMessage d now).2.timestamp = now ∧
    (s.createMessage d now).2.read = d.read ∧
    (d.read = none → (s.createMessage d now).2.isRead = false) ∧
    (s.createMessage d now).1.messages =
      s.messages ++ [(s.createMessage d now).2] := by
  refine ⟨rfl, rfl, rfl, rfl, ?_, rfl⟩
  intro h
  simp [MemStorage.createMessage, Message.isRead, h]

/-! ### Sample data used by the witnesses -/

def aliceUser : User :=
  ⟨1, "alice", "pw1", "Alice Smith", "Owl", 15, "MIL", "3B", "animal", "owl", 0⟩

def janeUser : User :=
  ⟨2, "jane", "pw2", "Jane Doe", "Fox", 16, "MIL", "4A", "animal", "fox", 0⟩

def bobUser : User :=
  ⟨3, "bob", "pw3", "Bob Jones", "Elf", 15, "MIL", "3B", "fantasy", "elf", 0⟩

/-- A store with three users and no messages or guesses yet. -/
def sampleStore : MemStorage :=
  { users := [aliceUser, janeUser, bobUser], messages := [], guesses := []
    userCurrentId := 4, messageCurrentId := 1, guessCurrentId := 1 }

theorem createMessage_assigns_witness :
    (sampleStore.createMessage ⟨1, 2, "hi", none⟩ 7).2.isRead = false :=
  (createMessage_assigns sampleStore ⟨1, 2, "hi", none⟩ 7).2.2.2.2.1 rfl

/-! ### Claim C9: absence semantics of getUser and updateUserLastActive -/

/-- All `User` fields agree except possibly `lastActive`. -/
def User.agreesExceptLastActive (u v : User) : Prop :=
  v.id = u.id ∧ v.username = u.username ∧ v.password = u.password ∧
  v.realName = u.realName ∧ v.fakeName = u.fakeName ∧ v.age = u.age ∧
  v.school = u.school ∧ v.classInfo = u.classInfo ∧
  v.avatarType = u.avatarType ∧ v.avatarId = u.avatarId

/-- C9: for an absent id, `getUser` returns the `none` sentinel and
`updateUserLastActive` is a no-op leaving the store equal; in all cases
`updateUserLastActive` leaves messages and guesses untouched and changes at
most the `lastActive` field of the user with the given id. -/
theorem store_absence_semantics (s : MemStorage) (id now : Nat) :
    ((∀ u ∈ s.users, u.id ≠ id) →
      s.getUser id = none ∧ s.updateUserLastActive id now = s) ∧
    (s.updateUserLastActive id now).messages = s.messages ∧
    (s.updateUserLastActive id now).guesses = s.guesses ∧
    List.Forall₂ (fun u v => u.agreesExceptLastActive v ∧
        (u.id ≠ id → v = u) ∧ (u.id = id → v.lastActive = now))
      s.users (s.updateUserLastActive id now).users := by
  have hget : (∀ u ∈ s.users, u.id ≠ id) → s.getUser id = none := by
    intro h
    unfold MemStorage.getUser
    rw [List.find?_eq_none]
    intro u hu
    simpa using h u hu
  refine ⟨fun h => ⟨hget h, ?_⟩, ?_, ?_, ?_⟩
  · unfold MemStorage.updateUserLastActive
    rw [hget h]
  · unfold MemStorage.updateUserLastActive
    cases s.getUser id <;> rfl
  · unfold MemStorage.updateUserLastActive
    cases s.getUser id <;> rfl
  · unfold MemStorage.updateUserLastActive
    cases hg : s.getUser id with
    | none =>
        rw [List.forall₂_same]
        intro u hu
        have habs : ¬(u.id == id) = true :=
          List.find?_eq_none.mp hg u hu
        exact ⟨by simp [User.agreesExceptLastActive], fun _ => rfl,
          fun h => absurd h (by simpa using habs)⟩
    | some u0 =>
        rw [List.forall₂_map_right_iff, List.forall₂_same]
        intro u hu
        by_cases hid : (u.id == id) = true
        · refine ⟨by simp [User.agreesExceptLastActive, hid],
            fun h => absurd (by simpa using hid) h, fun _ => by simp [hid]⟩
        · exact ⟨by simp [User.agreesExceptLastActive, hid], fun _ => by simp [hid],
            fun h => absurd h (by simpa using hid)⟩

theorem store_absence_semantics_witness :
    sampleStore.getUser 5 = none ∧
      sampleStore.updateUserLastActive 5 3 = sampleStore :=
  (store_absence_semantics sampleStore 5 3).1 (by decide)

/-! ### Claim C7: message creation round-trip -/

theorem count_jsSort [DecidableEq α] (le : α → α → Bool) (a : α)
    (l : List α) : (jsSort le l).count a = l.count a :=
  (jsSort_perm le l).count_eq a

/-- C7: in a store whose message ids have not reached the counter (true of
every reachable store), a freshly created message appears exactly once in the
thread between its sender and receiver, and is unread when the draft did not
mark it read. -/
theorem createMessage_roundtrip (s : MemStorage) (d : MemStorage.InsertMessage)
    (now : Nat)
    (hid : ∀ m ∈ s.messages, m.id ≠ s.messageCurrentId)
    (hread : d.read.getD false = false) :
    ((s.createMessage d now).1.getMessagesBetweenUsers d.senderId
        d.receiverId).count (s.createMessage d now).2 = 1 ∧
      (s.createMessage d now).2.isRead = false := by
  refine ⟨?_, hread⟩
  have hmsg : (s.createMessage d now).2 =
      { id := s.messageCurrentId, senderId := d.senderId
        receiverId := d.receiverId, content := d.content
        timestamp := now, read := d.read } := rfl
  have h1 : (s.createMessage d now).1.messages =
      s.messages ++ [(s.createMessage d now).2] := rfl
  unfold MemStorage.getMessagesBetweenUsers
  rw [count_jsSort, h1, List.filter_append, List.count_append, hmsg]
  have h0 : (s.messages.filter (fun m =>
      (m.senderId == d.senderId && m.receiverId == d.receiverId) ||
      (m.senderId == d.receiverId && m.receiverId == d.senderId))).count
        ({ id := s.messageCurrentId, senderId := d.senderId
           receiverId := d.receiverId, content := d.content
           timestamp := now, read := d.read } : Message) = 0 := by
    rw [List.count_eq_zero]
    intro hmem
    exact hid _ (List.mem_of_mem_filter hmem) rfl
  rw [h0, List.filter_cons_of_pos
    (by simp only [beq_self_eq_true, Bool.true_and, Bool.true_or]),
    List.filter_nil, List.count_singleton_self]

theorem createMessage_roundtrip_witness :
    ((sampleStore.createMessage ⟨1, 2, "hello", some false⟩ 9).1.getMessagesBetweenUsers
        1 2).count (sampleStore.createMessage ⟨1, 2, "hello", some false⟩ 9).2 = 1 ∧
      (sampleStore.createMessage ⟨1, 2, "hello", some false⟩ 9).2.isRead = false :=
  createMessage_roundtrip sampleStore ⟨1, 2, "hello", some false⟩ 9
    (by decide) rfl

/-! ### Claims C1 and C2: the POST /api/guess handler -/

/-- C1: for a guess on an existing target, the stored (and returned) guess is
correct exactly when the guessed name equals the target real name after
lowercasing both; the guess is appended to the store verbatim. -/
theorem postGuess_correct_iff (s : MemStorage) (guesserId targetId : Nat)
    (guessedName : String) (now : Nat) (tu : User)
    (h : s.getUser targetId = some tu) :
    ∃ resp, (postGuess s guesserId targetId guessedName now).2 = some resp ∧
      (postGuess s guesserId targetId guessedName now).1.guesses =
        s.guesses ++ [resp.guess] ∧
      resp.guess.guessedName = guessedName ∧
      (resp.guess.correct = true ↔
        jsToLower guessedName = jsToLower tu.realName) := by
  simp only [postGuess, h, MemStorage.createGuess]
  refine ⟨_, rfl, rfl, rfl, ?_⟩
  rw [beq_iff_eq]
  exact eq_comm

theorem postGuess_correct_iff_witness :
    sampleStore.getUser 2 = some janeUser ∧
      (∃ resp, (postGuess sampleStore 1 2 "jane doe" 5).2 = some resp ∧
        (postGuess sampleStore 1 2 "jane doe" 5).1.guesses =
          sampleStore.guesses ++ [resp.guess] ∧
        resp.guess.guessedName = "jane doe" ∧
        (resp.guess.correct = true ↔
          jsToLower "jane doe" = jsToLower janeUser.realName)) :=
  ⟨by decide, postGuess_correct_iff sampleStore 1 2 "jane doe" 5 janeUser
    (by decide)⟩

/-- C2: the 201 response of `POST /api/guess` carries `targetRealName` (the
target's real name) exactly when the guess was correct, and `none` otherwise. -/
theorem postGuess_reveal_iff (s : MemStorage) (guesserId targetId : Nat)
    (guessedName : String) (now : Nat) (tu : User)
    (h : s.getUser targetId = some tu) :
    ∃ resp, (postGuess s guesserId targetId guessedName now).2 = some resp ∧
      resp.targetRealName =
        (if resp.guess.correct then some tu.realName else none) ∧
      (resp.targetRealName.isSome = true ↔ resp.guess.correct = true) := by
  simp only [postGuess, h, MemStorage.createGuess]
  refine ⟨_, rfl, rfl, ?_⟩
  by_cases hc : (jsToLower tu.realName == jsToLower guessedName) = true <;>
    simp [hc]

theorem postGuess_reveal_iff_witness :
    sampleStore.getUser 2 = some janeUser ∧
      (∃ resp, (postGuess sampleStore 1 2 "Jane Doethe" 5).2 = some resp ∧
        resp.targetRealName =
          (if resp.guess.correct then some janeUser.realName else none) ∧
        (resp.targetRealName.isSome = true ↔ resp.guess.correct = true)) :=
  ⟨by decide, postGuess_reveal_iff sampleStore 1 2 "Jane Doethe" 5 janeUser
    (by decide)⟩

/-! ### Claim C3: conversation list ordering -/

/-- A store realising the spec scenario: messages at `t1 = 10 < t2 = 20 <
t3 = 30`; counterpart Jane (id 2) has the latest message at `t3`, counterpart
Bob (id 3) only at `t1`. -/
def convStore : MemStorage :=
  { users := [aliceUser, janeUser, bobUser]
    messages :=
      [ ⟨1, 3, 1, "first", 10, some false⟩,
        ⟨2, 1, 2, "second", 20, some false⟩,
        ⟨3, 2, 1, "third", 30, some false⟩ ]
    guesses := [], userCurrentId := 4, messageCurrentId := 4
    guessCurrentId := 1 }

/-- C3: `getConversationsForUser` sorts descending by `lastMessageTime` with
missing times last; in the concrete two-counterpart scenario (latest at `t3`
for user 2, at `t1` for user 3, `t1 < t3`) it returns `[2, 3]`. -/
theorem getConversationsForUser_sorted :
    (∀ (s : MemStorage) (u : Nat),
      (s.getConversationsForUser u).Pairwise (fun a b =>
        b.lastMessageTime = none ∨
        ∃ x y, a.lastMessageTime = some x ∧ b.lastMessageTime = some y ∧
          y ≤ x)) ∧
    (convStore.getConversationsForUser 1).map (fun c => c.userId) = [2, 3] := by
  constructor
  · intro s u
    have htrans : ∀ a b c : Conversation, MemStorage.convLe a b = true →
        MemStorage.convLe b c = true → MemStorage.convLe a c = true := by
      intro a b c hab hbc
      unfold MemStorage.convLe at *
      cases ha : a.lastMessageTime <;> cases hb : b.lastMessageTime <;>
        cases hc : c.lastMessageTime <;> simp_all <;> omega
    have htotal : ∀ a b : Conversation,
        MemStorage.convLe a b = true ∨ MemStorage.convLe b a = true := by
      intro a b
      unfold MemStorage.convLe
      cases ha : a.lastMessageTime <;> cases hb : b.lastMessageTime <;>
        simp <;> omega
    have h := jsSort_pairwise MemStorage.convLe htrans htotal
      (MemStorage.buildConversations s u)
    refine h.imp ?_
    intro a b hab
    unfold MemStorage.convLe at hab
    cases ha : a.lastMessageTime <;> cases hb : b.lastMessageTime <;>
      simp_all
  · decide

/-! ### Claim C10: getConversationsForUser is a pure query -/

/-- C10: the conversation query leaves the entire store unchanged — users,
messages (hence every `read` flag) and guesses — and a repeated call on the
resulting state returns the same conversation list. -/
theorem conversationsQuery_pure (s : MemStorage) (u : Nat) :
    (s.conversationsQuery u).1 = s ∧
    (s.conversationsQuery u).1.messages = s.messages ∧
    (s.conversationsQuery u).1.users = s.users ∧
    (s.conversationsQuery u).1.guesses = s.guesses ∧
    ((s.conversationsQuery u).1.conversationsQuery u).2 =
      (s.conversationsQuery u).2 :=
  ⟨rfl, rfl, rfl, rfl, rfl⟩
